import Mathlib

/-!
Shallow embedding of `Data/include/Poco/Data/RecordSet.h` (Poco Data library).

`RecordSet` privately inherits `Statement` and exposes typed and
dynamically-typed access to an already-executed statement's extraction set,
plus cursor navigation and a lazily populated row cache.

Functions whose bodies appear in the header (`operator =`, `rowCount`,
`columnCount`, `column<T,C>`, `columnPosition<T,C>`, `value<T>`, `nvl`,
`isNull(name)`, the current-row `value` overloads) are translated directly
from the source.  Collaborators that live outside the single source file
(`Statement`, `Extraction.h`, `Column.h`, `Poco::icompare`, and the
out-of-line members of `RecordSet.cpp` such as `moveFirst`, `moveNext`,
`row`) are modelled from the specification and are marked as such in their
doc comments.
-/

namespace PocoData

/-- Element-type tag standing for the template parameter `T` of
`Column<T,C>`; a small representative set of supported column types. -/
inductive ElemType
  | tInt
  | tString
  | tBool
deriving DecidableEq, Repr

/-- Container-shape tag standing for the template parameter `C` of
`Column<T,C>`: `std::vector`, `std::list` or `std::deque`. -/
inductive ShapeTag
  | vec
  | lst
  | deq
deriving DecidableEq, Repr

/-- Dynamically-typed value (`Poco::DynamicAny`): a boxed value of any
supported concrete type. -/
inductive DynAny
  | ofInt (n : Int)
  | ofString (s : String)
  | ofBool (b : Bool)
deriving DecidableEq, Repr

/-- The exceptions `RecordSet.h` can signal, carrying the data that the
source interpolates into the message:
`rangeError` is `Poco::RangeException`, `notFoundError` is
`Poco::NotFoundException`, `typeMismatch` is `Poco::BadCastException`
(the spec's TypeMismatchError), `illegalState` is
`Poco::IllegalStateException` (the spec's InvalidStateError), and
`assertViolation` is the exception thrown by a failed `poco_assert`. -/
inductive Err
  | rangeError (pos : Nat)
  | notFoundError (name : String)
  | typeMismatch (pos : Nat)
  | illegalState
  | assertViolation
deriving DecidableEq, Repr

/-- One result column (`Column<T,C>` with its `MetaColumn` data): name,
zero-based position, the actual element type and backing shape, and the
owned sequence of values (boxed, since the embedding is type-erased). -/
structure Column where
  name : String
  position : Nat
  elemType : ElemType
  shape : ShapeTag
  values : List DynAny
deriving DecidableEq, Repr

/-- Modelled from the spec: one type-erased extraction-set entry
(`AbstractExtraction` / `InternalExtraction<T,C>`, `Extraction.h` is not
under `src/`): an opaque handle whose concrete payload is a `Column` and
which reports a number of rows handled. -/
structure Extraction where
  col : Column
  rowsHandled : Nat
deriving DecidableEq, Repr

/-- Modelled from the spec: the checked downcast
`dynamic_cast<const InternalExtraction<T,C>*>` on an extraction entry
succeeds exactly when the requested element type and backing shape equal
the entry's actual ones, and yields the wrapped column. -/
def downcast (e : Extraction) (t : ElemType) (c : ShapeTag) : Option Column :=
  if e.col.elemType = t ∧ e.col.shape = c then some e.col else none

/-- Modelled from the spec: a column descriptor (`MetaColumn`, not under
`src/`); only the fields this header reads are modelled (name and
zero-based position). -/
structure MetaColumn where
  name : String
  position : Nat
deriving DecidableEq, Repr

/-- Modelled from the spec: the parts of `Statement` (not under `src/`)
that `RecordSet.h` reads through its private base: the ordered extraction
set, the storage-kind tag, the meta-column lookup table and the NULL
indicators (`nullMask` holds, per column position, the per-row NULL
flags reported by `isNull(position, row)`). -/
structure Statement where
  extractions : List Extraction
  storage : Nat
  metaColumns : List MetaColumn
  nullMask : List (List Bool)
deriving DecidableEq, Repr

/-- A cached `Row` object: a single-row view keyed by its fixed row
index. -/
structure Row where
  index : Nat
deriving DecidableEq, Repr

/-- The `RecordSet` state: the privately inherited `Statement`, the
cursor `_currentRow`, and the row cache `_rowMap` (an index-keyed map,
embedded as an association list). -/
structure RecordSet where
  stmt : Statement
  currentRow : Nat
  rowMap : List (Nat × Row)
deriving DecidableEq, Repr

/-- Modelled from the spec: `Poco::icompare` (`Poco/String.h`, not under
`src/`) compares two strings case-insensitively; the header only ever
tests its result against zero, and it is zero exactly when the two
strings agree after lowercasing. -/
def icompare (s1 s2 : String) : Int :=
  if s1.data.map Char.toLower = s2.data.map Char.toLower then 0 else 1

/-- Source: `RecordSet::rowCount` (header, lines 311-315): `poco_assert` that the
extraction set is non-empty, then return the first entry's
`numOfRowsHandled()`. -/
def rowCount (rs : RecordSet) : Except Err Nat :=
  match rs.stmt.extractions with
  | [] => .error .assertViolation
  | e :: _ => .ok e.rowsHandled

/-- Source: `RecordSet::columnCount` (header, lines 318-321): the size of the
extraction set. -/
def columnCount (rs : RecordSet) : Nat :=
  rs.stmt.extractions.length

/-- Source: `RecordSet::operator =` (header, lines 324-328): set `_currentRow`
to 0 and forward to `Statement::operator =`, which replaces the
statement part; no other member of `RecordSet` is touched. -/
def assign (rs : RecordSet) (stmt : Statement) : RecordSet :=
  { rs with currentRow := 0, stmt := stmt }

/-- Source: `RecordSet::column<T,C>(pos)` (header, lines 110-134): range-check
`pos` against the extraction-set size (`RangeException` on failure),
then downcast the entry at `pos` (`BadCastException` on failure) and
return its column. -/
def columnAt (t : ElemType) (c : ShapeTag) (rs : RecordSet) (pos : Nat) :
    Except Err Column :=
  let rExtractions := rs.stmt.extractions
  if h : 0 = rExtractions.length ∨ pos ≥ rExtractions.length then
    .error (.rangeError pos)
  else
    match downcast (rExtractions.get ⟨pos, by omega⟩) t c with
    | some col => .ok col
    | none => .error (.typeMismatch pos)

/-- The loop body of `RecordSet::columnPosition<T,C>` (header, lines
276-299): walk the extraction set in order; for each entry whose
downcast to `InternalExtraction<T,C>` succeeds, compare the requested
name with the column's name via `icompare` and return the column's
stored position on the first hit; entries of a different type or shape
are skipped; signal `NotFoundException` when the scan is exhausted. -/
def columnPositionGo (t : ElemType) (c : ShapeTag) (name : String) :
    List Extraction → Except Err Nat
  | [] => .error (.notFoundError name)
  | e :: rest =>
    match downcast e t c with
    | some col =>
      if icompare name col.name = 0 then .ok col.position
      else columnPositionGo t c name rest
    | none => columnPositionGo t c name rest

/-- Source: `RecordSet::columnPosition<T,C>(name)` (header, lines 276-299). -/
def columnPosition (t : ElemType) (c : ShapeTag) (rs : RecordSet)
    (name : String) : Except Err Nat :=
  columnPositionGo t c name rs.stmt.extractions

/-- Source: `RecordSet::column<T,C>(name)` (header, lines 103-108):
`column<T,C>(columnPosition<T,C>(name))`. -/
def columnByName (t : ElemType) (c : ShapeTag) (rs : RecordSet)
    (name : String) : Except Err Column :=
  (columnPosition t c rs name).bind (columnAt t c rs)

/-- Modelled from the spec: `Column<T,C>::value(row)` (`Column.h` is not
under `src/`) reads the `row`-th element of the column's owned sequence,
signalling a range error past the end. -/
def colValue (c : Column) (row : Nat) : Except Err DynAny :=
  match c.values[row]? with
  | some v => .ok v
  | none => .error (.rangeError row)

/-- Modelled from the spec: the storage-kind tag of `Statement` (not
under `src/`) is a C++ enumeration, embedded as a machine integer with
one distinct code per kind; any other integer is an unrecognized
storage kind. Code for the deque kind. -/
def STORAGE_DEQUE : Nat := 0

/-- Modelled from the spec: storage-kind code for the vector kind. -/
def STORAGE_VECTOR : Nat := 1

/-- Modelled from the spec: storage-kind code for the list kind. -/
def STORAGE_LIST : Nat := 2

/-- Modelled from the spec: storage-kind code for the unknown kind. -/
def STORAGE_UNKNOWN : Nat := 3

/-- Source: `RecordSet::value<T>(col, row)` (header, lines 140-156): switch on
`storage()`; the vector and unknown kinds select the
`column<T, std::vector<T>>` accessor, the list kind the list accessor,
the deque kind the deque accessor; any other tag signals
`IllegalStateException`. -/
def valueAt (t : ElemType) (rs : RecordSet) (col row : Nat) :
    Except Err DynAny :=
  if rs.stmt.storage = STORAGE_VECTOR ∨ rs.stmt.storage = STORAGE_UNKNOWN then
    (columnAt t .vec rs col).bind (colValue · row)
  else if rs.stmt.storage = STORAGE_LIST then
    (columnAt t .lst rs col).bind (colValue · row)
  else if rs.stmt.storage = STORAGE_DEQUE then
    (columnAt t .deq rs col).bind (colValue · row)
  else
    .error .illegalState

/-- Source: `RecordSet::value<T>(name, row)` (header, lines 158-174): the same
switch on `storage()`, going through the by-name column accessor. -/
def valueByName (t : ElemType) (rs : RecordSet) (name : String) (row : Nat) :
    Except Err DynAny :=
  if rs.stmt.storage = STORAGE_VECTOR ∨ rs.stmt.storage = STORAGE_UNKNOWN then
    (columnByName t .vec rs name).bind (colValue · row)
  else if rs.stmt.storage = STORAGE_LIST then
    (columnByName t .lst rs name).bind (colValue · row)
  else if rs.stmt.storage = STORAGE_DEQUE then
    (columnByName t .deq rs name).bind (colValue · row)
  else
    .error .illegalState

/-- Modelled from the spec: `Statement::metaColumn(name)` (not under
`src/`) resolves a column name to its `MetaColumn` through the same
case-insensitive name→position mapping used everywhere a name is
accepted, signalling `NotFoundException` for an unknown name. -/
def metaColumnByName (st : Statement) (name : String) :
    Except Err MetaColumn :=
  match st.metaColumns.find? (fun mc => icompare name mc.name == 0) with
  | some mc => .ok mc
  | none => .error (.notFoundError name)

/-- Modelled from the spec: `Statement::isNull(position, row)` (not
under `src/`) reports the NULL indicator of the given column position at
the given row, as recorded by the execution context. -/
def stmtIsNull (st : Statement) (pos row : Nat) : Bool :=
  (st.nullMask.getD pos []).getD row false

/-- Source: `RecordSet::isNull(name)` (header, lines 397-400):
`isNull(metaColumn(name).position(), _currentRow)`. -/
def rsIsNull (rs : RecordSet) (name : String) : Except Err Bool :=
  (metaColumnByName rs.stmt name).map
    (fun mc => stmtIsNull rs.stmt mc.position rs.currentRow)

/-- Modelled from the spec: `DynamicAny RecordSet::value(col, row)` is
implemented outside this header; per the spec it performs the typed
extraction for the column at `col` and boxes the result as a
dynamically-typed value. -/
def dynValueAt (rs : RecordSet) (col row : Nat) : Except Err DynAny :=
  match rs.stmt.extractions[col]? with
  | some e => colValue e.col row
  | none => .error (.rangeError col)

/-- Modelled from the spec: `DynamicAny RecordSet::value(name, row)` is
implemented outside this header; per the spec it resolves the name
through the shared case-insensitive mapping and boxes the value at the
resolved column. -/
def dynValueByName (rs : RecordSet) (name : String) (row : Nat) :
    Except Err DynAny :=
  (metaColumnByName rs.stmt name).bind (fun mc => dynValueAt rs mc.position row)

/-- Source: `RecordSet::nvl(name, deflt)` (header, lines 182-191): if
`isNull(name)` then a `DynamicAny` boxing the supplied default, else
`value(name)` at the current row.  The default is already boxed here
since the embedding is type-erased; its concrete type is independent of
the column's. -/
def nvlByName (rs : RecordSet) (name : String) (deflt : DynAny) :
    Except Err DynAny :=
  (rsIsNull rs name).bind (fun b =>
    if b then .ok deflt else dynValueByName rs name rs.currentRow)

/-- Source: `RecordSet::nvl(index, deflt)` (header, lines 193-202): if
`isNull(index)` (modelled from the spec: the inherited single-argument
`Statement::isNull` reads the NULL indicator at the current cursor row)
then a `DynamicAny` boxing the supplied default, else `value(index)` at
the current row. -/
def nvlAt (rs : RecordSet) (index : Nat) (deflt : DynAny) :
    Except Err DynAny :=
  if stmtIsNull rs.stmt index rs.currentRow then .ok deflt
  else dynValueAt rs index rs.currentRow

/-- Modelled from the spec: `RecordSet::moveFirst` is implemented
outside this header; per the spec it sets the cursor to 0 and returns
whether `rowCount() > 0`, propagating `rowCount`'s assertion. -/
def moveFirst (rs : RecordSet) : Except Err (Bool × RecordSet) :=
  (rowCount rs).map (fun n => (decide (0 < n), { rs with currentRow := 0 }))

/-- Modelled from the spec: `RecordSet::moveNext` is implemented outside
this header; per the spec, if `cursor + 1 < rowCount()` it advances the
cursor by one and returns true, else it leaves the cursor unchanged and
returns false, propagating `rowCount`'s assertion. -/
def moveNext (rs : RecordSet) : Except Err (Bool × RecordSet) :=
  (rowCount rs).map (fun n =>
    if rs.currentRow + 1 < n then
      (true, { rs with currentRow := rs.currentRow + 1 })
    else
      (false, rs))

/-- Modelled from the spec: `Row& RecordSet::row(pos)` is implemented
outside this header; per the spec it validates `pos` against the row
count (`RangeException` on failure) and returns the cached `Row` for
`pos`, creating and caching it on first access. -/
def rowAt (rs : RecordSet) (pos : Nat) : Except Err (Row × RecordSet) :=
  (rowCount rs).bind (fun n =>
    if pos < n then
      match rs.rowMap.lookup pos with
      | some r => .ok (r, rs)
      | none =>
        .ok (⟨pos⟩, { rs with rowMap := (pos, (⟨pos⟩ : Row)) :: rs.rowMap })
    else
      .error (.rangeError pos))

/-- The spec-side consistency invariant: every extraction entry reports
the same number of rows handled (spec §3 and §6). -/
def rowsConsistent (st : Statement) : Prop :=
  ∀ e ∈ st.extractions, ∀ f ∈ st.extractions, e.rowsHandled = f.rowsHandled

instance (st : Statement) : Decidable (rowsConsistent st) := by
  unfold rowsConsistent
  infer_instance

deriving instance DecidableEq for Except

/-- The trace of cursor positions produced by the spec's iteration loop
after the cursor has been positioned: repeatedly call `moveNext` while it
returns true, recording the cursor after each successful step; `fuel`
bounds the number of steps. -/
def visitFrom : Nat → RecordSet → List Nat
  | 0, _ => []
  | fuel + 1, rs =>
    match moveNext rs with
    | .ok (true, rs2) => rs2.currentRow :: visitFrom fuel rs2
    | _ => []

/-- The full visit trace of the spec's `moveFirst(); while (moveNext())`
loop: the cursor position after `moveFirst`, followed by the positions
after each successful `moveNext`. -/
def visitAll (rs : RecordSet) (fuel : Nat) : Except Err (List Nat) :=
  (moveFirst rs).map (fun p => p.2.currentRow :: visitFrom fuel p.2)

/-- The predicate the `columnPosition` scan effectively tests on each
extraction entry: the downcast to the requested element type and shape
succeeds and the entry's column name matches the requested name
case-insensitively. -/
def matchesTyped (t : ElemType) (c : ShapeTag) (name : String)
    (e : Extraction) : Bool :=
  match downcast e t c with
  | some col => icompare name col.name == 0
  | none => false

/-- Concrete column: "id", position 0, integer, vector-backed, 3 rows. -/
def colA : Column :=
  { name := "id", position := 0, elemType := .tInt, shape := .vec,
    values := [.ofInt 1, .ofInt 2, .ofInt 3] }

/-- Concrete column: "name", position 1, string, vector-backed, 3 rows. -/
def colB : Column :=
  { name := "name", position := 1, elemType := .tString, shape := .vec,
    values := [.ofString "x", .ofString "y", .ofString "z"] }

/-- Concrete statement with columns "id" and "name", 3 rows handled,
vector storage; the "name" column is NULL at row 2. -/
def stmtA : Statement :=
  { extractions := [⟨colA, 3⟩, ⟨colB, 3⟩], storage := STORAGE_VECTOR,
    metaColumns := [⟨"id", 0⟩, ⟨"name", 1⟩],
    nullMask := [[false, false, false], [false, false, true]] }

/-- Concrete record set over `stmtA` with cursor 0 and an empty row
cache. -/
def rsA : RecordSet := { stmt := stmtA, currentRow := 0, rowMap := [] }

/-- Concrete record set over `stmtA` with the cursor on the NULL row. -/
def rsNull : RecordSet := { stmt := stmtA, currentRow := 2, rowMap := [] }

/-- Concrete record set over `stmtA` with a non-empty row cache and a
moved cursor, about to be re-assigned. -/
def rsCached : RecordSet :=
  { stmt := stmtA, currentRow := 2, rowMap := [(0, ⟨0⟩)] }

/-- Concrete single-column statement used as an assignment target. -/
def stmtB : Statement :=
  { extractions := [⟨⟨"c", 0, .tBool, .vec, [.ofBool true]⟩, 1⟩],
    storage := STORAGE_VECTOR, metaColumns := [⟨"c", 0⟩],
    nullMask := [[false]] }

/-- Concrete record set with two columns both named "a": position 0 is
string-typed, position 1 is integer-typed, both vector-backed. -/
def rsDup : RecordSet :=
  { stmt :=
      { extractions :=
          [⟨⟨"a", 0, .tString, .vec, [.ofString "u", .ofString "v"]⟩, 2⟩,
           ⟨⟨"a", 1, .tInt, .vec, [.ofInt 7, .ofInt 8]⟩, 2⟩],
        storage := STORAGE_VECTOR, metaColumns := [⟨"a", 0⟩],
        nullMask := [[false, false], [false, false]] },
    currentRow := 0, rowMap := [] }

/-- Concrete record set whose storage tag is an unrecognized code. -/
def rsBad : RecordSet :=
  { stmt := { stmtA with storage := 7 }, currentRow := 0, rowMap := [] }

/-- Concrete record set whose storage tag is the unknown kind. -/
def rsUnk : RecordSet :=
  { stmt := { stmtA with storage := STORAGE_UNKNOWN }, currentRow := 0,
    rowMap := [] }

/-- Concrete record set with an empty extraction set. -/
def rsEmpty : RecordSet :=
  { stmt := { extractions := [], storage := STORAGE_VECTOR,
              metaColumns := [], nullMask := [] },
    currentRow := 0, rowMap := [] }

/-- A successful downcast yields the entry's own column. -/
theorem downcast_some_col {e : Extraction} {t : ElemType} {c : ShapeTag}
    {col : Column} (h : downcast e t c = some col) : col = e.col := by
  unfold downcast at h
  split at h
  · injection h with h
    exact h.symm
  · cases h

/-- Strings with the same lowercasing compare equal against every third
string under `icompare`. -/
theorem icompare_congr {s1 s2 : String}
    (h : s1.data.map Char.toLower = s2.data.map Char.toLower) (x : String) :
    icompare s1 x = icompare s2 x := by
  simp [icompare, h]

/-- The scan of `columnPositionGo` returns the position stored in the
first entry satisfying `matchesTyped`, and a not-found error when no
entry satisfies it. -/
theorem columnPositionGo_eq_find (t : ElemType) (c : ShapeTag)
    (name : String) (l : List Extraction) :
    columnPositionGo t c name l =
      match l.find? (matchesTyped t c name) with
      | some e => Except.ok e.col.position
      | none => Except.error (Err.notFoundError name) := by
  induction l with
  | nil => rfl
  | cons e rest ih =>
    cases hdc : downcast e t c with
    | none =>
      have hm : matchesTyped t c name e = false := by
        simp [matchesTyped, hdc]
      simp [columnPositionGo, hdc, List.find?_cons, hm, ih]
    | some col =>
      have hcol := downcast_some_col hdc
      subst hcol
      by_cases hic : icompare name e.col.name = 0
      · have hm : matchesTyped t c name e = true := by
          simp [matchesTyped, hdc, hic]
        simp [columnPositionGo, hdc, hic, List.find?_cons, hm]
      · have hm : matchesTyped t c name e = false := by
          simp [matchesTyped, hdc, hic]
        simp [columnPositionGo, hdc, hic, List.find?_cons, hm, ih]

/-- When every entry whose name matches the requested one fails the
downcast, the scan falls off the end and signals the not-found error. -/
theorem columnPositionGo_notFound (t : ElemType) (c : ShapeTag)
    (name : String) (l : List Extraction)
    (hall : ∀ f ∈ l, icompare name f.col.name = 0 → downcast f t c = none) :
    columnPositionGo t c name l = .error (.notFoundError name) := by
  induction l with
  | nil => rfl
  | cons e rest ih =>
    cases hdc : downcast e t c with
    | none =>
      simp only [columnPositionGo, hdc]
      exact ih (fun f hf => hall f (List.mem_cons_of_mem _ hf))
    | some col =>
      have hcol := downcast_some_col hdc
      subst hcol
      by_cases hic : icompare name e.col.name = 0
      · exact absurd hdc (by simp [hall e (List.mem_cons_self _ _) hic])
      · simp only [columnPositionGo, hdc, hic, if_neg]
        exact ih (fun f hf => hall f (List.mem_cons_of_mem _ hf))

/-- The row count only reads the statement part, not the cursor. -/
theorem rowCount_cursor (rs : RecordSet) (c : Nat) :
    rowCount { rs with currentRow := c } = rowCount rs := rfl

/-- C1 counterexample: assigning a new already-executed statement to a
RecordSet with a cached Row resets the cursor to 0 but leaves the row
cache non-empty, so the cached rows are not discarded. -/
theorem C1_counterexample :
    (assign rsCached stmtB).currentRow = 0 ∧
    (assign rsCached stmtB).rowMap ≠ [] := by
  decide

/-- C1 (amended): assignment of a RecordSet to a new already-executed
statement resets the cursor to row 0 and replaces (does not merge) the
statement part carrying the extraction set, but leaves the row cache
untouched: previously cached Row objects are retained. -/
theorem C1_assign_resets_cursor_keeps_cache (rs : RecordSet)
    (stmt : Statement) :
    (assign rs stmt).currentRow = 0 ∧
    (assign rs stmt).stmt = stmt ∧
    (assign rs stmt).rowMap = rs.rowMap :=
  ⟨rfl, rfl, rfl⟩

/-- C3: when the execution layer's consistency invariant holds (every
extraction entry reports the same number of rows handled) and `rowCount`
returns `n`, every entry of the extraction set reports exactly `n`. -/
theorem C3_rowCount_invariant (rs : RecordSet) (n : Nat)
    (hc : rowsConsistent rs.stmt) (h : rowCount rs = .ok n) :
    ∀ e ∈ rs.stmt.extractions, e.rowsHandled = n := by
  intro e he
  cases hl : rs.stmt.extractions with
  | nil =>
    rw [hl] at he
    cases he
  | cons e0 rest =>
    have h0 : e0.rowsHandled = n := by
      unfold rowCount at h
      rw [hl] at h
      simpa using h
    have hmem : e0 ∈ rs.stmt.extractions := by
      rw [hl]
      exact List.mem_cons_self _ _
    exact (hc e he e0 hmem).trans h0

/-- C3 witness: on the concrete two-column statement with 3 rows
handled, the second entry also reports 3. -/
theorem C3_witness : (⟨colB, 3⟩ : Extraction).rowsHandled = 3 :=
  C3_rowCount_invariant rsA 3 (by decide) (by decide)
    ⟨colB, 3⟩ (by decide)

/-- C10: `rowCount` asserts that the extraction set is non-empty — on a
RecordSet with zero columns it fails the assertion instead of returning
0 — and otherwise returns the first entry's reported row count, never
consulting the remaining entries. -/
theorem C10_rowCount_head_only (rs : RecordSet) :
    (rs.stmt.extractions = [] → rowCount rs = .error .assertViolation) ∧
    (∀ e rest, rs.stmt.extractions = e :: rest →
      rowCount rs = .ok e.rowsHandled ∧
      ∀ rest2,
        rowCount { rs with stmt := { rs.stmt with extractions := e :: rest2 } } =
          .ok e.rowsHandled) := by
  constructor
  · intro h
    unfold rowCount
    rw [h]
  · intro e rest h
    constructor
    · unfold rowCount
      rw [h]
    · intro rest2
      rfl

/-- C10 witness: on the concrete empty RecordSet the assertion fails,
and on the concrete two-column RecordSet the first entry's count is
returned even with the second entry replaced. -/
theorem C10_witness :
    rowCount rsEmpty = .error .assertViolation ∧
    rowCount rsA = .ok 3 :=
  ⟨(C10_rowCount_head_only rsEmpty).1 rfl,
   ((C10_rowCount_head_only rsA).2 ⟨colA, 3⟩ [⟨colB, 3⟩] rfl).1⟩

/-- C6: every row position at or past `rowCount()` makes `row` signal
RangeError, and every column position at or past `columnCount()` makes
`column<T,C>` signal RangeError; in particular this holds at
`rowCount()` and `columnCount()` themselves. -/
theorem C6_out_of_range (t : ElemType) (c : ShapeTag) (rs : RecordSet)
    (n pos cpos : Nat) (h : rowCount rs = .ok n)
    (hp : n ≤ pos) (hq : columnCount rs ≤ cpos) :
    rowAt rs pos = .error (.rangeError pos) ∧
    columnAt t c rs cpos = .error (.rangeError cpos) := by
  constructor
  · simp [rowAt, h, Except.bind, show ¬ pos < n by omega]
  · unfold columnCount at hq
    unfold columnAt
    rw [dif_pos (Or.inr hq)]

/-- C6 witness: on the concrete 3-row, 2-column RecordSet,
`row(rowCount())` and `column<Int,vector>(columnCount())` both signal
RangeError. -/
theorem C6_witness :
    rowAt rsA 3 = .error (.rangeError 3) ∧
    columnAt ElemType.tInt ShapeTag.vec rsA 2 = .error (.rangeError 2) :=
  C6_out_of_range ElemType.tInt ShapeTag.vec rsA 3 3 2 (by decide)
    (by decide) (by decide)

/-- C8: `value<T>(col, row)` and `value<T>(name, row)` dispatch on the
stored storage-kind tag: the vector (and unknown) kinds select the
vector-shaped column accessor, the list kind the list-shaped one, the
deque kind the deque-shaped one, and any unrecognized storage kind
signals InvalidStateError. -/
theorem C8_storage_dispatch (t : ElemType) (rs : RecordSet)
    (col row : Nat) (name : String) :
    ((rs.stmt.storage = STORAGE_VECTOR ∨ rs.stmt.storage = STORAGE_UNKNOWN) →
      valueAt t rs col row = (columnAt t .vec rs col).bind (colValue · row) ∧
      valueByName t rs name row =
        (columnByName t .vec rs name).bind (colValue · row)) ∧
    (rs.stmt.storage = STORAGE_LIST →
      valueAt t rs col row = (columnAt t .lst rs col).bind (colValue · row) ∧
      valueByName t rs name row =
        (columnByName t .lst rs name).bind (colValue · row)) ∧
    (rs.stmt.storage = STORAGE_DEQUE →
      valueAt t rs col row = (columnAt t .deq rs col).bind (colValue · row) ∧
      valueByName t rs name row =
        (columnByName t .deq rs name).bind (colValue · row)) ∧
    (rs.stmt.storage ≠ STORAGE_DEQUE → rs.stmt.storage ≠ STORAGE_VECTOR →
     rs.stmt.storage ≠ STORAGE_LIST → rs.stmt.storage ≠ STORAGE_UNKNOWN →
      valueAt t rs col row = .error .illegalState ∧
      valueByName t rs name row = .error .illegalState) := by
  refine ⟨fun h => ?_, fun h => ?_, fun h => ?_, fun h1 h2 h3 h4 => ?_⟩
  · constructor
    · unfold valueAt
      rw [if_pos h]
    · unfold valueByName
      rw [if_pos h]
  · constructor
    · simp [valueAt, h, STORAGE_VECTOR, STORAGE_UNKNOWN, STORAGE_LIST,
        STORAGE_DEQUE]
    · simp [valueByName, h, STORAGE_VECTOR, STORAGE_UNKNOWN, STORAGE_LIST,
        STORAGE_DEQUE]
  · constructor
    · simp [valueAt, h, STORAGE_VECTOR, STORAGE_UNKNOWN, STORAGE_LIST,
        STORAGE_DEQUE]
    · simp [valueByName, h, STORAGE_VECTOR, STORAGE_UNKNOWN, STORAGE_LIST,
        STORAGE_DEQUE]
  · constructor
    · simp [valueAt, h1, h2, h3, h4]
    · simp [valueByName, h1, h2, h3, h4]

/-- C8 witness: on the concrete RecordSet whose storage tag is the
unrecognized code 7, both generic value accessors signal
InvalidStateError. -/
theorem C8_witness :
    valueAt ElemType.tInt rsBad 0 0 = .error .illegalState ∧
    valueByName ElemType.tInt rsBad "id" 0 = .error .illegalState :=
  (C8_storage_dispatch ElemType.tInt rsBad 0 0 "id").2.2.2
    (by decide) (by decide) (by decide) (by decide)

/-- C9: with the UNKNOWN storage tag, `value<T>(col, row)` is dispatched
exactly like a vector-backed access — identical to the result under the
vector storage kind — and no error is signalled by the dispatch. -/
theorem C9_unknown_as_vector (t : ElemType) (rs : RecordSet)
    (col row : Nat) (h : rs.stmt.storage = STORAGE_UNKNOWN) :
    valueAt t rs col row = (columnAt t .vec rs col).bind (colValue · row) ∧
    valueAt t rs col row =
      valueAt t { rs with stmt := { rs.stmt with storage := STORAGE_VECTOR } }
        col row := by
  have h1 : valueAt t rs col row =
      (columnAt t .vec rs col).bind (colValue · row) := by
    unfold valueAt
    rw [if_pos (Or.inr h)]
  refine ⟨h1, ?_⟩
  rw [h1]
  unfold valueAt
  rw [if_pos (Or.inl rfl)]
  rfl

/-- C9 witness: on the concrete RecordSet with the UNKNOWN storage tag,
the generic access at column 0, row 0 equals the vector-shaped access
and the access under the vector storage kind. -/
theorem C9_witness :
    valueAt ElemType.tInt rsUnk 0 0 =
      (columnAt ElemType.tInt ShapeTag.vec rsUnk 0).bind (colValue · 0) ∧
    valueAt ElemType.tInt rsUnk 0 0 =
      valueAt ElemType.tInt
        { rsUnk with stmt := { rsUnk.stmt with storage := STORAGE_VECTOR } }
        0 0 :=
  C9_unknown_as_vector ElemType.tInt rsUnk 0 0 (by decide)

/-- C2 counterexample: on the concrete RecordSet, the name "id"
resolves (case-insensitively) to the integer column at position 0, yet
requesting `column<String,vector>("id")` signals NotFoundError, not the
TypeMismatchError the claim requires for by-name access to a
wrong-typed column. -/
theorem C2_counterexample :
    columnByName ElemType.tString ShapeTag.vec rsA "id" =
      .error (.notFoundError "id") := by
  decide

/-- C2 (amended): by position, an in-range column whose actual element
type or backing shape does not match the requested one signals
TypeMismatchError, which is distinguishable from NotFoundError; by
name, wrong-typed columns are skipped during resolution, so a name
borne only by columns of a non-matching type or shape signals
NotFoundError instead. -/
theorem C2_type_mismatch_errors (t : ElemType) (c : ShapeTag)
    (rs : RecordSet) (pos : Nat) (name : String) (e : Extraction)
    (he : rs.stmt.extractions[pos]? = some e)
    (hd : downcast e t c = none) :
    columnAt t c rs pos = .error (.typeMismatch pos) ∧
    ((∀ f ∈ rs.stmt.extractions,
        icompare name f.col.name = 0 → downcast f t c = none) →
      columnPosition t c rs name = .error (.notFoundError name) ∧
      columnByName t c rs name = .error (.notFoundError name)) ∧
    Err.typeMismatch pos ≠ Err.notFoundError name := by
  have hlen : pos < rs.stmt.extractions.length := by
    by_contra hc
    rw [List.getElem?_eq_none (by omega)] at he
    cases he
  refine ⟨?_, fun hall => ?_, by simp⟩
  · unfold columnAt
    rw [dif_neg (by omega)]
    have hget : rs.stmt.extractions.get ⟨pos, by omega⟩ = e := by
      have := List.getElem?_eq_getElem hlen
      rw [he] at this
      injection this with this
      simpa [List.get_eq_getElem] using this.symm
    rw [hget, hd]
  · have hpos : columnPosition t c rs name = .error (.notFoundError name) :=
      columnPositionGo_notFound t c name rs.stmt.extractions hall
    exact ⟨hpos, by simp [columnByName, hpos, Except.bind]⟩

/-- C2 witness: on the concrete RecordSet, requesting the string-typed
vector column at position 0 (actually an integer column) signals
TypeMismatchError, while requesting it by its name "id" signals
NotFoundError. -/
theorem C2_witness :
    columnAt ElemType.tString ShapeTag.vec rsA 0 =
      .error (.typeMismatch 0) ∧
    columnPosition ElemType.tString ShapeTag.vec rsA "id" =
      .error (.notFoundError "id") :=
  ⟨(C2_type_mismatch_errors ElemType.tString ShapeTag.vec rsA 0 "id"
      ⟨colA, 3⟩ (by decide) (by decide)).1,
   ((C2_type_mismatch_errors ElemType.tString ShapeTag.vec rsA 0 "id"
      ⟨colA, 3⟩ (by decide) (by decide)).2.1 (by decide)).1⟩

/-- C5 counterexample: on the concrete RecordSet with two columns both
named "a", the first (lowest-ordinal) entry whose name matches the
lookup "a" is at ordinal 0, yet the typed lookup for an integer vector
column returns position 1: the wrong-typed first name match does not
win. -/
theorem C5_counterexample :
    rsDup.stmt.extractions.map (fun e => e.col.name) = ["a", "a"] ∧
    columnPosition ElemType.tInt ShapeTag.vec rsDup "a" = .ok 1 := by
  decide

/-- C5 (amended): typed name resolution linearly scans the ordered
extraction set, skipping entries whose element type or backing shape
does not match the requested one; among the remaining entries the first
case-insensitive name match wins and its stored position is returned; a
name matching no type-compatible entry signals NotFoundError; and two
lookups whose names differ only in letter case return identical
successful results. -/
theorem C5_name_resolution (t : ElemType) (c : ShapeTag) (rs : RecordSet)
    (name : String) :
    (columnPosition t c rs name =
      match rs.stmt.extractions.find? (matchesTyped t c name) with
      | some e => Except.ok e.col.position
      | none => Except.error (Err.notFoundError name)) ∧
    (∀ name2 pos,
      name.data.map Char.toLower = name2.data.map Char.toLower →
      (columnPosition t c rs name = Except.ok pos ↔
        columnPosition t c rs name2 = Except.ok pos)) := by
  refine ⟨columnPositionGo_eq_find t c name rs.stmt.extractions,
    fun name2 pos hlow => ?_⟩
  have hpred : matchesTyped t c name = matchesTyped t c name2 := by
    funext f
    unfold matchesTyped
    cases hdc : downcast f t c with
    | none => rfl
    | some col =>
      show (icompare name col.name == 0) = (icompare name2 col.name == 0)
      rw [icompare_congr hlow]
  rw [show columnPosition t c rs name =
        columnPositionGo t c name rs.stmt.extractions from rfl,
      show columnPosition t c rs name2 =
        columnPositionGo t c name2 rs.stmt.extractions from rfl,
      columnPositionGo_eq_find t c name, columnPositionGo_eq_find t c name2,
      ← hpred]
  cases rs.stmt.extractions.find? (matchesTyped t c name) with
  | none => simp
  | some e => simp

/-- C5 witness: on the concrete duplicate-name RecordSet, looking up
"A" returns the same position as looking up "a". -/
theorem C5_witness :
    columnPosition ElemType.tInt ShapeTag.vec rsDup "A" = .ok 1 :=
  ((C5_name_resolution ElemType.tInt ShapeTag.vec rsDup "A").2 "a" 1
    (by decide)).mpr (by decide)

/-- C7: for both the by-name and the by-position form of `nvl`, when the
column's value at the current cursor row is NULL the result is the boxed
supplied default (whose concrete type is independent of the column's),
and otherwise it is the cell's actual dynamically-typed value, ignoring
the default. -/
theorem C7_nvl_null_coalescing (rs : RecordSet) (name : String)
    (index : Nat) (deflt v w : DynAny) (mc : MetaColumn)
    (hmc : metaColumnByName rs.stmt name = .ok mc)
    (hv : dynValueByName rs name rs.currentRow = .ok v)
    (hw : dynValueAt rs index rs.currentRow = .ok w) :
    (stmtIsNull rs.stmt mc.position rs.currentRow = true →
      nvlByName rs name deflt = .ok deflt) ∧
    (stmtIsNull rs.stmt mc.position rs.currentRow = false →
      nvlByName rs name deflt = .ok v) ∧
    (stmtIsNull rs.stmt index rs.currentRow = true →
      nvlAt rs index deflt = .ok deflt) ∧
    (stmtIsNull rs.stmt index rs.currentRow = false →
      nvlAt rs index deflt = .ok w) := by
  refine ⟨fun hb => ?_, fun hb => ?_, fun hb => ?_, fun hb => ?_⟩
  · simp [nvlByName, rsIsNull, hmc, Except.map, Except.bind, hb]
  · simp [nvlByName, rsIsNull, hmc, Except.map, Except.bind, hb, hv]
  · simp [nvlAt, hb]
  · simp [nvlAt, hb, hw]

/-- C7 witness: on the concrete RecordSet with the cursor on row 2
(where "name" is NULL but "id" is not), `nvl("name", 9)` returns the
boxed integer default 9 even though the column holds strings, and
`nvl(0, "d")` ignores the default and returns the cell value 3. -/
theorem C7_witness :
    nvlByName rsNull "name" (DynAny.ofInt 9) = .ok (DynAny.ofInt 9) ∧
    nvlAt rsNull 0 (DynAny.ofString "d") = .ok (DynAny.ofInt 3) :=
  ⟨(C7_nvl_null_coalescing rsNull "name" 0 (DynAny.ofInt 9)
      (DynAny.ofString "z") (DynAny.ofInt 3) ⟨"name", 1⟩
      (by decide) (by decide) (by decide)).1 (by decide),
   (C7_nvl_null_coalescing rsNull "name" 0 (DynAny.ofString "d")
      (DynAny.ofString "z") (DynAny.ofInt 3) ⟨"name", 1⟩
      (by decide) (by decide) (by decide)).2.2.2 (by decide)⟩

/-- On a record set with `rowCount` equal to `n` and the cursor `k + 1`
steps before the end, the `moveNext` loop visits exactly the positions
`cursor + 1, …, n - 1`, given at least `k` steps of fuel. -/
theorem visitFrom_eq_range' (k : Nat) :
    ∀ (fuel : Nat) (rs : RecordSet) (n : Nat),
      rowCount rs = .ok n → rs.currentRow + 1 + k = n → k ≤ fuel →
      visitFrom fuel rs = List.range' (rs.currentRow + 1) k := by
  induction k with
  | zero =>
    intro fuel rs n hrc hsum _
    have hmn : moveNext rs = .ok (false, rs) := by
      simp [moveNext, hrc, Except.map, show ¬ rs.currentRow + 1 < n by omega]
    cases fuel with
    | zero => simp [visitFrom, List.range']
    | succ f => simp [visitFrom, hmn, List.range']
  | succ k ih =>
    intro fuel rs n hrc hsum hle
    have hlt : rs.currentRow + 1 < n := by omega
    have hmn : moveNext rs =
        .ok (true, { rs with currentRow := rs.currentRow + 1 }) := by
      simp [moveNext, hrc, Except.map, hlt]
    cases fuel with
    | zero => omega
    | succ f =>
      have h2 : rowCount { rs with currentRow := rs.currentRow + 1 } =
          .ok n := by
        rw [rowCount_cursor]
        exact hrc
      have hrec := ih f { rs with currentRow := rs.currentRow + 1 } n h2
        (by simp; omega) (by omega)
      simp only [visitFrom, hmn]
      simp only at hrec
      rw [hrec, List.range'_succ]

/-- C4: `moveNext` advances the cursor by one and returns true exactly
when `cursor + 1 < rowCount()`, and otherwise returns false leaving the
cursor unchanged; consequently `moveFirst()` followed by repeated
`moveNext()` visits exactly the positions `0, …, rowCount()-1` — that
is, `rowCount()` distinct positions in strictly increasing order ending
at `rowCount()-1`. -/
theorem C4_cursor_traversal (rs : RecordSet) (n : Nat)
    (h : rowCount rs = .ok n) (hn : 0 < n) :
    (∀ c, c + 1 < n →
      moveNext { rs with currentRow := c } =
        .ok (true, { rs with currentRow := c + 1 })) ∧
    (∀ c, ¬ c + 1 < n →
      moveNext { rs with currentRow := c } =
        .ok (false, { rs with currentRow := c })) ∧
    (∀ fuel, n ≤ fuel + 1 → visitAll rs fuel = .ok (List.range n)) := by
  refine ⟨fun c hc => ?_, fun c hc => ?_, fun fuel hf => ?_⟩
  · simp [moveNext, rowCount_cursor, h, Except.map, hc]
  · simp [moveNext, rowCount_cursor, h, Except.map, hc]
  · have hmf : moveFirst rs = .ok (true, { rs with currentRow := 0 }) := by
      simp [moveFirst, h, Except.map, hn]
    have hvf := visitFrom_eq_range' (n - 1) fuel
      { rs with currentRow := 0 } n (by rw [rowCount_cursor]; exact h)
      (by simp; omega) (by omega)
    simp only at hvf
    simp only [visitAll, hmf, Except.map, hvf]
    obtain ⟨m, rfl⟩ : ∃ m, n = m + 1 := ⟨n - 1, by omega⟩
    simp only [Nat.add_sub_cancel]
    rw [List.range_eq_range']
    exact congrArg Except.ok (List.range'_succ 0 m 1).symm

/-- C4 witness: on the concrete 3-row RecordSet, the loop visits
exactly the positions 0, 1, 2. -/
theorem C4_witness : visitAll rsA 2 = .ok (List.range 3) :=
  (C4_cursor_traversal rsA 3 (by decide) (by decide)).2.2 2 (by decide)

end PocoData
